import Mathlib

/-!
Verification of the steering-center plugin host against its specification.

The Rust sources are shallowly embedded:
- `toru-plugin-api/src/types.rs` (message schema and constructors),
- `toru-plugin-api/src/protocol.rs` (length-prefixed JSON framing),
- `toru-plugin-api/src/error.rs` (error kinds),
- `src/services/executor.rs` (task registry and cancellation),
- `src/routes/ws.rs` (script streaming loop),
- `src/routes/plugins.rs` (derived health and management handlers).

Machine strings are Lean `String`s; byte streams are `List Nat` with each
element < 256; `chrono::DateTime<Utc>` is represented by its RFC 3339
rendering (chrono's serde round-trip through that rendering is exact).
Serde's derive semantics (internally tagged enums, `flatten`, `untagged`,
implicitly-optional `Option` fields, unknown fields ignored) are modelled
explicitly on a `Json` value type, and `serde_json`'s text layer is modelled
by an executable renderer and parser over `List Char`.
-/

namespace Toru

/-! ### Generic association-list maps

`HashMap<String, V>` values are embedded as association lists without
duplicate-key use; `insert` replaces, `remove` erases, `get` looks up. -/

/-- Look up a key in an association list (model of `HashMap::get`). -/
def lookupEntry {α : Type} (key : String) : List (String × α) → Option α
  | [] => none
  | (k, v) :: rest => if k = key then some v else lookupEntry key rest

/-- Insert or replace a key (model of `HashMap::insert`). -/
def insertEntry {α : Type} (key : String) (val : α) : List (String × α) → List (String × α)
  | [] => [(key, val)]
  | (k, v) :: rest =>
      if k = key then (key, val) :: rest else (k, v) :: insertEntry key val rest

/-- Remove a key, returning the removed value and the rest (model of `HashMap::remove`). -/
def removeEntry {α : Type} (key : String) : List (String × α) → Option α × List (String × α)
  | [] => (none, [])
  | (k, v) :: rest =>
      if k = key then (some v, rest)
      else
        let r := removeEntry key rest
        (r.1, (k, v) :: r.2)

/-- Replace the value stored under a key, if present (in-place mutation through
a shared handle is modelled as updating the map entry). -/
def setEntry {α : Type} (key : String) (val : α) : List (String × α) → List (String × α)
  | [] => []
  | (k, v) :: rest => if k = key then (key, val) :: rest else (k, v) :: setEntry key val rest

/-- The keys of an association list, in order. -/
def keysOf {α : Type} (m : List (String × α)) : List String := m.map (fun kv => kv.1)

/-! ### Message schema — `toru-plugin-api/src/types.rs` -/

/-- PluginMetadata (types.rs lines 4-12). -/
structure PluginMetadata where
  id : String
  name : String
  version : String
  author : Option String
  icon : String
  route : String
deriving DecidableEq

/-- HttpRequest (types.rs lines 32-38); `headers: HashMap<String,String>` as an
association list. -/
structure HttpRequest where
  method : String
  path : String
  headers : List (String × String)
  body : Option String
deriving DecidableEq

/-- KvOp (types.rs lines 47-53), serde-tagged by the "action" field. -/
inductive KvOp where
  | Get (key : String)
  | Set (key : String) (value : String)
  | Delete (key : String)
deriving DecidableEq

/-- LifecycleInitPayload (types.rs lines 55-60). -/
structure LifecycleInitPayload where
  instance_id : String
  plugin_socket : String
  log_path : String
deriving DecidableEq

/-- KvMessagePayload (types.rs lines 84-90), serde `untagged`: a request is
tried first, then a response. -/
inductive KvMessagePayload where
  | Request (op : KvOp)
  | Response (value : Option String)
deriving DecidableEq

/-- MessagePayload (types.rs lines 62-82), serde internally tagged by "type";
the lifecycle init payload and the kv payload are flattened. -/
inductive MessagePayload where
  | Lifecycle (action : String) (payload : Option LifecycleInitPayload)
  | Http (request_id : String) (payload : HttpRequest)
  | Kv (request_id : String) (payload : KvMessagePayload)
deriving DecidableEq

/-- Message (types.rs lines 92-99); `timestamp : DateTime<Utc>` is carried as
its RFC 3339 rendering. The struct field `message_type` is renamed to "type"
on the wire. -/
structure Message where
  message_type : String
  timestamp : String
  request_id : Option String
  payload : MessagePayload
deriving DecidableEq

/-- Message::new_lifecycle (types.rs lines 102-112); `Utc::now()` is passed in
as `now`. -/
def new_lifecycle (now : String) (action : String)
    (init_payload : Option LifecycleInitPayload) : Message :=
  { message_type := "lifecycle"
    timestamp := now
    request_id := none
    payload := MessagePayload.Lifecycle action init_payload }

/-- Message::new_http (types.rs lines 114-125). -/
def new_http (now : String) (request_id : String) (payload : HttpRequest) : Message :=
  { message_type := "http"
    timestamp := now
    request_id := some request_id
    payload := MessagePayload.Http request_id payload }

/-- Message::new_kv (types.rs lines 127-138). -/
def new_kv (now : String) (request_id : String) (payload : KvOp) : Message :=
  { message_type := "kv"
    timestamp := now
    request_id := some request_id
    payload := MessagePayload.Kv request_id (KvMessagePayload.Request payload) }

/-- Message::new_kv_response (types.rs lines 141-152). -/
def new_kv_response (now : String) (request_id : String) (value : Option String) : Message :=
  { message_type := "kv"
    timestamp := now
    request_id := some request_id
    payload := MessagePayload.Kv request_id (KvMessagePayload.Response value) }

/-- The serde wire tag of a payload variant (the `#[serde(rename)]` strings of
MessagePayload). -/
def payloadTag : MessagePayload → String
  | MessagePayload.Lifecycle _ _ => "lifecycle"
  | MessagePayload.Http _ _ => "http"
  | MessagePayload.Kv _ _ => "kv"

/-- The correlation id carried inside a payload variant, when it has one. -/
def payloadRequestId : MessagePayload → Option String
  | MessagePayload.Lifecycle _ _ => none
  | MessagePayload.Http rid _ => some rid
  | MessagePayload.Kv rid _ => some rid

/-! ### Executor and task registry — `src/services/executor.rs` -/

/-- An OS child process handle (`tokio::process::Child`), identified by pid for
the model. -/
structure Child where
  pid : Nat
deriving DecidableEq

/-- The contents of one registry cell `Mutex<Option<Child>>`: `some` until the
child is killed through `cancel_task`, then `none`. -/
abbrev TaskHandle := Option Child

/-- TaskRegistry (executor.rs line 21):
`Arc<Mutex<HashMap<String, Arc<Mutex<Option<Child>>>>>>`. -/
abbrev TaskRegistry := List (String × TaskHandle)

/-- create_task_registry (executor.rs lines 23-25). -/
def create_task_registry : TaskRegistry := []

/-- store_task (executor.rs lines 42-45): inserts `Some(child)` under the id. -/
def store_task (task_id : String) (child : Child) (registry : TaskRegistry) : TaskRegistry :=
  insertEntry task_id (some child) registry

/-- get_task (executor.rs lines 48-51): clones the handle out of the map
without removing the entry. -/
def get_task (task_id : String) (registry : TaskRegistry) : Option TaskHandle :=
  lookupEntry task_id registry

/-- remove_task (executor.rs lines 54-57). -/
def remove_task (task_id : String) (registry : TaskRegistry) : TaskRegistry :=
  (removeEntry task_id registry).2

/-- cancel_task (executor.rs lines 60-75): looks the handle up, and if a live
child is present kills it and overwrites the cell with `None`; returns whether
a live child was killed. The `child.kill().await?` call is modelled as always
succeeding (its error case would propagate an `Err`, not change the registry). -/
def cancel_task (task_id : String) (registry : TaskRegistry) : Bool × TaskRegistry :=
  match lookupEntry task_id registry with
  | some (some _) => (true, setEntry task_id none registry)
  | some none => (false, registry)
  | none => (false, registry)

/-! ### The websocket streaming task — `src/routes/ws.rs` -/

/-- TaskMessage (executor.rs lines 9-18). -/
structure TaskMessage where
  type : String
  task_id : Option String
  data : Option String
  code : Option Int
deriving DecidableEq

/-- The first thing the spawned streaming task does (ws.rs lines 121-125): it
`remove`s the child from the registry and streams from the removed handle. -/
def stream_task_take (task_id : String) (registry : TaskRegistry) :
    Option TaskHandle × TaskRegistry :=
  removeEntry task_id registry

/-- One stdout line message as built at ws.rs lines 145-150 (`data` is the line
with its trailing newline trimmed; lines are modelled already-trimmed). -/
def stdoutMsg (task_id line : String) : TaskMessage :=
  { type := "stdout", task_id := some task_id, data := some line, code := none }

/-- One stderr line message as built at ws.rs lines 166-171. -/
def stderrMsg (task_id line : String) : TaskMessage :=
  { type := "stderr", task_id := some task_id, data := some line, code := none }

/-- Result of the ws.rs streaming `loop` (lines 137-182): the messages emitted
to the websocket sink, whether the loop ended through the stdout `break`, and
the lines of each stream left unread when it ended. -/
structure StreamResult where
  emitted : List TaskMessage
  brokeOnStdout : Bool
  stdoutRest : List String
  stderrRest : List String
deriving DecidableEq

/-- The `tokio::select!` streaming loop of ws.rs lines 137-182. The two streams
are the remaining lines of stdout and stderr (EOF = empty list, each line
already trimmed of its newline); `sched` resolves the select nondeterminism:
at each iteration `true` polls the stdout arm, `false` the stderr arm. The
stdout arm `break`s on `Ok(0)` (EOF); the stderr arm does nothing on EOF and
the loop continues. Read errors (both arms' `Err` cases) are not modelled:
streams only yield lines then EOF. The recursion is on `sched`, so an
unexhausted schedule returns what was emitted so far with `brokeOnStdout :=
false`. -/
def stream_loop (task_id : String) (sched : List Bool) (stdoutLines stderrLines : List String) :
    StreamResult :=
  match sched with
  | [] => { emitted := [], brokeOnStdout := false,
            stdoutRest := stdoutLines, stderrRest := stderrLines }
  | pickStdout :: sched' =>
      if pickStdout then
        match stdoutLines with
        | [] => { emitted := [], brokeOnStdout := true,
                  stdoutRest := [], stderrRest := stderrLines }
        | l :: rest =>
            let r := stream_loop task_id sched' rest stderrLines
            { r with emitted := stdoutMsg task_id l :: r.emitted }
      else
        match stderrLines with
        | [] => stream_loop task_id sched' stdoutLines []
        | l :: rest =>
            let r := stream_loop task_id sched' stdoutLines rest
            { r with emitted := stderrMsg task_id l :: r.emitted }

/-- The exit code computed after the streams end (ws.rs line 185):
`status.ok().and_then(|s| s.code()).unwrap_or(-1)`. The outer `Option` is
`status.ok()`; the inner one is `code()`, which is `None` for a killed
process. -/
def wait_exit_code (status : Option (Option Int)) : Int :=
  (status.bind id).getD (-1)

/-- The cancel branch of the websocket handler (ws.rs lines 213-228): it calls
`cancel_task` and emits a `cancelled` message only when that returned true. -/
def ws_cancel (task_id : String) (registry : TaskRegistry) :
    List TaskMessage × TaskRegistry :=
  let r := cancel_task task_id registry
  if r.1 then
    ([{ type := "cancelled", task_id := some task_id, data := none, code := none }], r.2)
  else
    ([], r.2)

/-! ### Plugin health and management handlers — `src/routes/plugins.rs` -/

/-- Modelled from the spec: the supervisor lifecycle states of §4.5. The
supervisor source (`src/services/plugins.rs`) is not part of the provided
sources; only the state names come from the spec. -/
inductive PluginState where
  | Unloaded | Starting | Running | Degraded | Stopping | Disabled
deriving DecidableEq

/-- Modelled from the spec: the supervisor-owned plugin record (spec §3
`PluginRecord`), restricted to the fields the `From<&PluginProcess> for
PluginStatus` impl in src/routes/plugins.rs reads (`id`, `metadata`,
`enabled`, `socket_path`, `process`, `pid`) plus the spec's `state` field,
which that impl never reads. `socket_path` is a plain string, empty when
absent, exactly as the impl treats it. -/
structure PluginProcess where
  id : String
  metadata : Option PluginMetadata
  enabled : Bool
  state : PluginState
  pid : Option Nat
  socket_path : String
  process : Option Child
deriving DecidableEq

/-- PluginStatus (plugins.rs lines 18-30). -/
structure PluginStatus where
  id : String
  name : String
  version : String
  author : Option String
  icon : String
  enabled : Bool
  running : Bool
  health : String
  pid : Option Nat
  socket_path : Option String
deriving DecidableEq

/-- The health derivation of `impl From<&PluginProcess> for PluginStatus`
(plugins.rs lines 34-40). File-system state is passed in as `fsExists`
(modelling `PathBuf::from(..).exists()`). -/
def healthOf (p : PluginProcess) (fsExists : String → Bool) : String :=
  if !p.enabled then "disabled"
  else if p.socket_path ≠ "" && fsExists p.socket_path then "healthy"
  else "unhealthy"

/-- The health projection as the claim words it: "disabled" when not enabled,
"healthy" when enabled, Running, and the socket file exists, "unhealthy"
otherwise. Stated from the spec sentence, to be compared with `healthOf`. -/
def healthPerSpec (p : PluginProcess) (fsExists : String → Bool) : String :=
  if !p.enabled then "disabled"
  else if p.state = PluginState.Running && fsExists p.socket_path then "healthy"
  else "unhealthy"

/-- The full `From<&PluginProcess> for PluginStatus` conversion
(plugins.rs lines 32-71). -/
def pluginStatusOf (p : PluginProcess) (fsExists : String → Bool) : PluginStatus :=
  { id := p.id
    name := (p.metadata.map (fun m => m.name)).getD p.id
    version := (p.metadata.map (fun m => m.version)).getD "unknown"
    author := p.metadata.bind (fun m => m.author)
    icon := (p.metadata.map (fun m => m.icon)).getD ""
    enabled := p.enabled
    running := p.process.isSome
    health := healthOf p fsExists
    pid := p.pid
    socket_path := if p.socket_path = "" then none else some p.socket_path }

/-- The supervisor state visible to the route handlers. `plugins` models
`get_plugin_status` / `get_all_plugins` lookups; `enableOk` / `disableOk`
abstract whether the awaited `supervisor.enable_plugin` / `disable_plugin`
calls (whose source, src/services/plugins.rs, is not among the provided
sources) return `Ok`. -/
structure Supervisor where
  plugins : List (String × PluginProcess)
  enableOk : String → Bool
  disableOk : String → Bool

/-- An HTTP reply as the handlers shape it: a status code, and whether a
response body accompanies it. -/
structure Reply where
  status : Nat
  hasBody : Bool
deriving DecidableEq

/-- list_plugins (plugins.rs lines 85-100): 501 when the supervisor is absent,
otherwise 200 with the status list. -/
def list_plugins (sup : Option Supervisor) : Reply :=
  match sup with
  | none => { status := 501, hasBody := false }
  | some _ => { status := 200, hasBody := true }

/-- get_plugin (plugins.rs lines 103-119): 501 when the supervisor is absent,
404 on an unknown id, otherwise 200 with the status. -/
def get_plugin (sup : Option Supervisor) (id : String) : Reply :=
  match sup with
  | none => { status := 501, hasBody := false }
  | some s =>
      match lookupEntry id s.plugins with
      | none => { status := 404, hasBody := false }
      | some _ => { status := 200, hasBody := true }

/-- enable_plugin (plugins.rs lines 122-153): 501 (with JSON error body) when
the supervisor is absent, 404 (with body) on an unknown id, 500 (with body)
when the supervisor call fails, else 204 with no content. -/
def enable_plugin (sup : Option Supervisor) (id : String) : Reply :=
  match sup with
  | none => { status := 501, hasBody := true }
  | some s =>
      match lookupEntry id s.plugins with
      | none => { status := 404, hasBody := true }
      | some _ =>
          if s.enableOk id then { status := 204, hasBody := false }
          else { status := 500, hasBody := true }

/-- disable_plugin (plugins.rs lines 156-187), mirror of `enable_plugin`. -/
def disable_plugin (sup : Option Supervisor) (id : String) : Reply :=
  match sup with
  | none => { status := 501, hasBody := true }
  | some s =>
      match lookupEntry id s.plugins with
      | none => { status := 404, hasBody := true }
      | some _ =>
          if s.disableOk id then { status := 204, hasBody := false }
          else { status := 500, hasBody := true }

/-! ### JSON values and serde derive semantics

The JSON data model of `serde_json`, restricted to integer numbers (no value
serialized by this program is a number, and float-bearing frames are outside
every claim). -/

/-- A JSON value. Objects keep their members in order; `serde_json` hash-map
iteration order is represented by the list order. -/
inductive Json where
  | null
  | bool (b : Bool)
  | num (n : Int)
  | str (s : String)
  | arr (items : List Json)
  | obj (members : List (String × Json))

/-- Field lookup in an object's member list (first match, as serde sees the
first occurrence of a field name). -/
def getField : List (String × Json) → String → Option Json
  | [], _ => none
  | (k, v) :: rest, key => if k = key then some v else getField rest key

/-- Membership of a key in a literal key set. -/
def hasKey : List String → String → Bool
  | [], _ => false
  | k :: rest, key => if k = key then true else hasKey rest key

/-- The members left over for a `#[serde(flatten)]` field: everything not
consumed by the enum tag or by the variant's named fields. -/
def removeKeys (keys : List String) : List (String × Json) → List (String × Json)
  | [] => []
  | (k, v) :: rest =>
      if hasKey keys k then removeKeys keys rest else (k, v) :: removeKeys keys rest

/-- Deserialize a `String` field. -/
def asStr : Json → Option String
  | Json.str s => some s
  | _ => none

/-- Deserialize an `Option<String>` value: `null` is `None`, a string is
`Some`. -/
def asOptStr : Json → Option (Option String)
  | Json.null => some none
  | Json.str s => some (some s)
  | _ => none

/-- Deserialize an implicitly optional `Option<String>` struct field: a
missing field is `None` (serde treats `Option` fields as defaulting to
`None`), `null` is `None`, a string is `Some`. -/
def getOptStrField (members : List (String × Json)) (key : String) : Option (Option String) :=
  match getField members key with
  | none => some none
  | some v => asOptStr v

/-- Deserialize a `HashMap<String, String>`: every member value must be a
string. -/
def asStrMap : List (String × Json) → Option (List (String × String))
  | [] => some []
  | (k, v) :: rest => do
      let s ← asStr v
      let tail ← asStrMap rest
      pure ((k, s) :: tail)

/-- Serialize an `Option<String>` field (no `skip_serializing_if`, so `None`
becomes `null`). -/
def optStrJson : Option String → Json
  | none => Json.null
  | some s => Json.str s

/-- Serialize a `HashMap<String, String>`. -/
def strMapJson (m : List (String × String)) : Json :=
  Json.obj (m.map (fun kv => (kv.1, Json.str kv.2)))

/-- Serialize an `HttpRequest` (fields in declaration order). -/
def httpRequestJson (r : HttpRequest) : Json :=
  Json.obj [("method", Json.str r.method), ("path", Json.str r.path),
            ("headers", strMapJson r.headers), ("body", optStrJson r.body)]

/-- Deserialize an `HttpRequest`: `method`, `path` and `headers` are required,
`body` is implicitly optional; unknown fields are ignored. -/
def parseHttpRequest (j : Json) : Option HttpRequest :=
  match j with
  | Json.obj members => do
      let method ← getField members "method" >>= asStr
      let path ← getField members "path" >>= asStr
      let headersJ ← getField members "headers"
      let headers ←
        match headersJ with
        | Json.obj hs => asStrMap hs
        | _ => none
      let body ← getOptStrField members "body"
      pure { method := method, path := path, headers := headers, body := body }
  | _ => none

/-- The flattened members contributed by a `KvMessagePayload`: a request is a
tagged `KvOp` (`action` tag), a response is a bare `value` member. -/
def kvPayloadMembers : KvMessagePayload → List (String × Json)
  | KvMessagePayload.Request (KvOp.Get key) =>
      [("action", Json.str "Get"), ("key", Json.str key)]
  | KvMessagePayload.Request (KvOp.Set key value) =>
      [("action", Json.str "Set"), ("key", Json.str key), ("value", Json.str value)]
  | KvMessagePayload.Request (KvOp.Delete key) =>
      [("action", Json.str "Delete"), ("key", Json.str key)]
  | KvMessagePayload.Response value => [("value", optStrJson value)]

/-- Deserialize a `KvOp` from flattened members: internally tagged by
`action`. -/
def parseKvOp (members : List (String × Json)) : Option KvOp :=
  match getField members "action" with
  | some (Json.str "Get") => (getField members "key" >>= asStr).map KvOp.Get
  | some (Json.str "Set") => do
      let key ← getField members "key" >>= asStr
      let value ← getField members "value" >>= asStr
      pure (KvOp.Set key value)
  | some (Json.str "Delete") => (getField members "key" >>= asStr).map KvOp.Delete
  | _ => none

/-- Deserialize the `#[serde(untagged)] KvMessagePayload` from flattened
members: the `Request` variant is tried first, then `Response`, whose only
field `value` is implicitly optional (a leftover object with no usable
members still parses as `Response { value: None }`, as serde's untagged
struct deserialization ignores unknown fields). -/
def parseKvPayload (members : List (String × Json)) : Option KvMessagePayload :=
  match parseKvOp members with
  | some op => some (KvMessagePayload.Request op)
  | none =>
      match getField members "value" with
      | none => some (KvMessagePayload.Response none)
      | some v => (asOptStr v).map KvMessagePayload.Response

/-- Serialize a `MessagePayload` (internally tagged by "type", tag first; the
lifecycle init payload and the kv payload are flattened; a `None` flattened
option contributes nothing). -/
def payloadJson : MessagePayload → Json
  | MessagePayload.Lifecycle action payload =>
      Json.obj (("type", Json.str "lifecycle") :: ("action", Json.str action) ::
        (match payload with
         | none => []
         | some p => [("instance_id", Json.str p.instance_id),
                      ("plugin_socket", Json.str p.plugin_socket),
                      ("log_path", Json.str p.log_path)]))
  | MessagePayload.Http request_id payload =>
      Json.obj [("type", Json.str "http"), ("request_id", Json.str request_id),
                ("payload", httpRequestJson payload)]
  | MessagePayload.Kv request_id payload =>
      Json.obj (("type", Json.str "kv") :: ("request_id", Json.str request_id) ::
        kvPayloadMembers payload)

/-- Deserialize the flattened `Option<LifecycleInitPayload>`: serde's
`FlatMapDeserializer` visits `None` exactly when every member was already
consumed (here: by the tag and `action`), and otherwise requires the struct
to deserialize from the leftovers. -/
def parseLifecycleInit (leftover : List (String × Json)) :
    Option (Option LifecycleInitPayload) :=
  match leftover with
  | [] => some none
  | _ => do
      let instance_id ← getField leftover "instance_id" >>= asStr
      let plugin_socket ← getField leftover "plugin_socket" >>= asStr
      let log_path ← getField leftover "log_path" >>= asStr
      pure (some { instance_id := instance_id, plugin_socket := plugin_socket,
                   log_path := log_path })

/-- Deserialize a `MessagePayload`: dispatch on the "type" tag, then read the
variant's named fields and hand the leftover members to the flattened
field. -/
def parsePayload (j : Json) : Option MessagePayload :=
  match j with
  | Json.obj members => do
      let tag ← getField members "type" >>= asStr
      if tag = "lifecycle" then do
        let action ← getField members "action" >>= asStr
        let init ← parseLifecycleInit (removeKeys ["type", "action"] members)
        pure (MessagePayload.Lifecycle action init)
      else if tag = "http" then do
        let request_id ← getField members "request_id" >>= asStr
        let payload ← getField members "payload" >>= parseHttpRequest
        pure (MessagePayload.Http request_id payload)
      else if tag = "kv" then do
        let request_id ← getField members "request_id" >>= asStr
        let payload ← parseKvPayload (removeKeys ["type", "request_id"] members)
        pure (MessagePayload.Kv request_id payload)
      else none
  | _ => none

/-- Serialize a `Message` (fields in declaration order; `message_type` is
renamed to "type"; `request_id : Option<String>` has no skip attribute, so
`None` serializes as `null`). -/
def messageJson (m : Message) : Json :=
  Json.obj [("type", Json.str m.message_type), ("timestamp", Json.str m.timestamp),
            ("request_id", optStrJson m.request_id), ("payload", payloadJson m.payload)]

/-- Deserialize a `Message`. -/
def parseMessage (j : Json) : Option Message :=
  match j with
  | Json.obj members => do
      let message_type ← getField members "type" >>= asStr
      let timestamp ← getField members "timestamp" >>= asStr
      let request_id ← getOptStrField members "request_id"
      let payload ← getField members "payload" >>= parsePayload
      pure { message_type := message_type, timestamp := timestamp,
             request_id := request_id, payload := payload }
  | _ => none

/-! ### JSON text — the `serde_json` byte layer

Rendering follows `serde_json::to_vec`'s compact form (no whitespace, strings
escaped as serde_json escapes them: `\"`, `\\`, `\b`, `\t`, `\n`, `\f`, `\r`
and `\u00XX` for the remaining control characters, everything else verbatim).
Parsing follows `serde_json::from_slice` restricted to the shapes the claims
exercise: numbers are integers only (no value serialized by this program is a
number), `\uXXXX` escapes outside the scalar range are rejected rather than
surrogate-paired, and nesting depth is unbounded. -/

/-- The double-quote character (written via its code to keep JSON punctuation
out of literals). -/
abbrev quoteC : Char := Char.ofNat 34

/-- The backslash character. -/
abbrev bslashC : Char := Char.ofNat 92

/-- The opening-brace character. -/
abbrev lbraceC : Char := Char.ofNat 123

/-- The closing-brace character. -/
abbrev rbraceC : Char := Char.ofNat 125

/-- JSON whitespace: space, newline, tab, carriage return. -/
def isWsChar (c : Char) : Bool :=
  c = ' ' || c = Char.ofNat 10 || c = Char.ofNat 9 || c = Char.ofNat 13

/-- Skip leading JSON whitespace. -/
def dropWs : List Char → List Char
  | [] => []
  | c :: rest => if isWsChar c then dropWs rest else c :: rest

/-- The lowercase hex digit for a value below 16. -/
def hexDigitChar (n : Nat) : Char :=
  if n < 10 then Char.ofNat (48 + n) else Char.ofNat (87 + n)

/-- The value of a hex digit character (either case). -/
def hexVal (c : Char) : Option Nat :=
  if 48 ≤ c.toNat ∧ c.toNat ≤ 57 then some (c.toNat - 48)
  else if 97 ≤ c.toNat ∧ c.toNat ≤ 102 then some (c.toNat - 87)
  else if 65 ≤ c.toNat ∧ c.toNat ≤ 70 then some (c.toNat - 55)
  else none

/-- Escape one character as serde_json's string serializer does. -/
def escapeChar (c : Char) : List Char :=
  if c = quoteC then [bslashC, quoteC]
  else if c = bslashC then [bslashC, bslashC]
  else if c = Char.ofNat 8 then [bslashC, 'b']
  else if c = Char.ofNat 9 then [bslashC, 't']
  else if c = Char.ofNat 10 then [bslashC, 'n']
  else if c = Char.ofNat 12 then [bslashC, 'f']
  else if c = Char.ofNat 13 then [bslashC, 'r']
  else if c.toNat < 32 then
    [bslashC, 'u', '0', '0', hexDigitChar (c.toNat / 16), hexDigitChar (c.toNat % 16)]
  else [c]

/-- Escape a character sequence. -/
def escapeChars : List Char → List Char
  | [] => []
  | c :: rest => escapeChar c ++ escapeChars rest

/-- Render a string, quotes included. -/
def renderString (s : String) : List Char :=
  quoteC :: (escapeChars s.toList ++ [quoteC])

/-- Undo a single-character escape. -/
def unescapeChar (e : Char) : Option Char :=
  if e = quoteC then some quoteC
  else if e = bslashC then some bslashC
  else if e = '/' then some '/'
  else if e = 'b' then some (Char.ofNat 8)
  else if e = 'f' then some (Char.ofNat 12)
  else if e = 'n' then some (Char.ofNat 10)
  else if e = 'r' then some (Char.ofNat 13)
  else if e = 't' then some (Char.ofNat 9)
  else none

/-- Parse a string body after its opening quote: returns the unescaped content
and the remainder after the closing quote. Raw control characters are
rejected, as serde_json rejects them unescaped. -/
def parseStrBody : List Char → Option (List Char × List Char)
  | [] => none
  | c :: rest =>
      if c = quoteC then some ([], rest)
      else if c = bslashC then
        match rest with
        | [] => none
        | e :: rest' =>
            if e = 'u' then
              match rest' with
              | h1 :: h2 :: h3 :: h4 :: rest2 => do
                  let v1 ← hexVal h1
                  let v2 ← hexVal h2
                  let v3 ← hexVal h3
                  let v4 ← hexVal h4
                  let n := ((v1 * 16 + v2) * 16 + v3) * 16 + v4
                  if Nat.isValidChar n then
                    (parseStrBody rest2).map (fun r => (Char.ofNat n :: r.1, r.2))
                  else none
              | _ => none
            else do
              let u ← unescapeChar e
              (parseStrBody rest').map (fun r => (u :: r.1, r.2))
      else if c.toNat < 32 then none
      else (parseStrBody rest).map (fun r => (c :: r.1, r.2))

/-- The value of a decimal digit character. -/
def digitVal (c : Char) : Option Nat :=
  if 48 ≤ c.toNat ∧ c.toNat ≤ 57 then some (c.toNat - 48) else none

/-- Take the leading run of decimal digits. -/
def takeDigitRun : List Char → List Nat × List Char
  | [] => ([], [])
  | c :: rest =>
      match digitVal c with
      | some d => let r := takeDigitRun rest; (d :: r.1, r.2)
      | none => ([], c :: rest)

/-- Combine digit values most-significant first. -/
def natOfDigits (ds : List Nat) : Nat := ds.foldl (fun a d => a * 10 + d) 0

/-- Parse an integer JSON number (fractional and exponent forms are outside
the modelled grammar). -/
def parseJsonNumber (cs : List Char) : Option (Json × List Char) :=
  match cs with
  | '-' :: rest =>
      let r := takeDigitRun rest
      if r.1.isEmpty then none else some (Json.num (-(natOfDigits r.1 : Int)), r.2)
  | _ =>
      let r := takeDigitRun cs
      if r.1.isEmpty then none else some (Json.num (natOfDigits r.1), r.2)

mutual

/-- Parse one JSON value (leading whitespace allowed); `fuel` bounds the
recursion and is in practice the input length. -/
def parseJsonValue : Nat → List Char → Option (Json × List Char)
  | 0, _ => none
  | fuel + 1, cs =>
      match dropWs cs with
      | 'n' :: 'u' :: 'l' :: 'l' :: rest => some (Json.null, rest)
      | 't' :: 'r' :: 'u' :: 'e' :: rest => some (Json.bool true, rest)
      | 'f' :: 'a' :: 'l' :: 's' :: 'e' :: rest => some (Json.bool false, rest)
      | c :: rest =>
          if c = quoteC then
            (parseStrBody rest).map (fun r => (Json.str (String.mk r.1), r.2))
          else if c = lbraceC then
            match dropWs rest with
            | [] => none
            | d :: rest' =>
                if d = rbraceC then some (Json.obj [], rest')
                else (parseJsonMembers fuel (d :: rest')).map (fun r => (Json.obj r.1, r.2))
          else if c = '[' then
            match dropWs rest with
            | ']' :: rest' => some (Json.arr [], rest')
            | ds => (parseJsonItems fuel ds).map (fun r => (Json.arr r.1, r.2))
          else if c = '-' || (digitVal c).isSome then parseJsonNumber (c :: rest)
          else none
      | [] => none

/-- Parse one or more comma-separated object members and the closing brace
(the input starts at the first member's key). -/
def parseJsonMembers : Nat → List Char → Option (List (String × Json) × List Char)
  | 0, _ => none
  | fuel + 1, cs =>
      match cs with
      | [] => none
      | c :: rest =>
          if c = quoteC then
            match parseStrBody rest with
            | none => none
            | some (key, rest1) =>
                match dropWs rest1 with
                | ':' :: rest2 =>
                    match parseJsonValue fuel rest2 with
                    | none => none
                    | some (v, rest3) =>
                        match dropWs rest3 with
                        | ',' :: rest4 =>
                            (parseJsonMembers fuel (dropWs rest4)).map
                              (fun r => ((String.mk key, v) :: r.1, r.2))
                        | d :: rest4 =>
                            if d = rbraceC then some ([(String.mk key, v)], rest4) else none
                        | [] => none
                | _ => none
          else none

/-- Parse one or more comma-separated array items and the closing bracket. -/
def parseJsonItems : Nat → List Char → Option (List Json × List Char)
  | 0, _ => none
  | fuel + 1, cs =>
      match parseJsonValue fuel cs with
      | none => none
      | some (v, rest) =>
          match dropWs rest with
          | ',' :: rest2 => (parseJsonItems fuel rest2).map (fun r => (v :: r.1, r.2))
          | ']' :: rest2 => some ([v], rest2)
          | _ => none

end

mutual

/-- Render a JSON value in serde_json's compact form. -/
def renderJson : Json → List Char
  | Json.null => ['n', 'u', 'l', 'l']
  | Json.bool true => ['t', 'r', 'u', 'e']
  | Json.bool false => ['f', 'a', 'l', 's', 'e']
  | Json.num n => (toString n).toList
  | Json.str s => renderString s
  | Json.arr items => '[' :: (renderItems items ++ [']'])
  | Json.obj members => lbraceC :: (renderMembers members ++ [rbraceC])

/-- Render array items, comma separated. -/
def renderItems : List Json → List Char
  | [] => []
  | [j] => renderJson j
  | j :: rest => renderJson j ++ ',' :: renderItems rest

/-- Render object members, comma separated. -/
def renderMembers : List (String × Json) → List Char
  | [] => []
  | [(k, v)] => renderString k ++ ':' :: renderJson v
  | (k, v) :: rest => renderString k ++ ':' :: (renderJson v ++ ',' :: renderMembers rest)

end

mutual

/-- A node-count measure: a fuel of at least `jsize j` parses `j` back (the
`arr` case is outside the wire fragment and gets a dummy measure). -/
def jsize : Json → Nat
  | Json.null => 1
  | Json.bool _ => 1
  | Json.num _ => 1
  | Json.str _ => 1
  | Json.arr _ => 1
  | Json.obj members => 1 + jsizeMembers members

/-- Member-list measure. -/
def jsizeMembers : List (String × Json) → Nat
  | [] => 0
  | (_, v) :: rest => jsize v + 1 + jsizeMembers rest

end

mutual

/-- The fragment of `Json` that this program's serializer emits: null,
booleans, strings and objects (no numbers, no arrays). The renderer/parser
pair is proven inverse on this fragment. -/
def wireJson : Json → Bool
  | Json.null => true
  | Json.bool _ => true
  | Json.num _ => false
  | Json.str _ => true
  | Json.arr _ => false
  | Json.obj members => wireMembers members

/-- Member-list wire-fragment membership. -/
def wireMembers : List (String × Json) → Bool
  | [] => true
  | (_, v) :: rest => wireJson v && wireMembers rest

end

/-- Parse a complete JSON document: one value, then only whitespace
(`serde_json::from_slice` fails on trailing content). -/
def parseJsonText (cs : List Char) : Option Json :=
  match parseJsonValue (cs.length + 1) cs with
  | some (j, rest) => if (dropWs rest).isEmpty then some j else none
  | none => none

/-- `serde_json::to_string(message)` as a character list. -/
def serializeMessage (m : Message) : List Char :=
  renderJson (messageJson m)

/-- `serde_json::from_str::<Message>` on a character list. -/
def deserializeMessage (cs : List Char) : Option Message :=
  (parseJsonText cs).bind parseMessage

/-! ### UTF-8 bytes

`serde_json` reads and writes byte slices; strings cross the boundary as
UTF-8. Decoding checks continuation-byte ranges and the scalar-value range,
but not overlong forms (no claim distinguishes them). -/

/-- The UTF-8 encoding of one scalar value (as a character). -/
def utf8EncodeChar (c : Char) : List Nat :=
  let n := c.toNat
  if n < 128 then [n]
  else if n < 2048 then [192 + n / 64, 128 + n % 64]
  else if n < 65536 then [224 + n / 4096, 128 + n / 64 % 64, 128 + n % 64]
  else [240 + n / 262144, 128 + n / 4096 % 64, 128 + n / 64 % 64, 128 + n % 64]

/-- The UTF-8 encoding of a character sequence. -/
def utf8Encode : List Char → List Nat
  | [] => []
  | c :: rest => utf8EncodeChar c ++ utf8Encode rest

/-- Whether a byte is a UTF-8 continuation byte. -/
def isContByte (b : Nat) : Bool := 128 ≤ b && b < 192

/-- Decode one UTF-8 sequence from the head of a byte list. -/
def utf8DecodeOne : List Nat → Option (Char × List Nat)
  | [] => none
  | b :: rest =>
      if b < 128 then some (Char.ofNat b, rest)
      else if b < 192 then none
      else if b < 224 then
        match rest with
        | b1 :: rest1 =>
            if isContByte b1 then
              let n := (b - 192) * 64 + (b1 - 128)
              if Nat.isValidChar n then some (Char.ofNat n, rest1) else none
            else none
        | _ => none
      else if b < 240 then
        match rest with
        | b1 :: b2 :: rest2 =>
            if isContByte b1 && isContByte b2 then
              let n := (b - 224) * 4096 + (b1 - 128) * 64 + (b2 - 128)
              if Nat.isValidChar n then some (Char.ofNat n, rest2) else none
            else none
        | _ => none
      else if b < 248 then
        match rest with
        | b1 :: b2 :: b3 :: rest3 =>
            if isContByte b1 && isContByte b2 && isContByte b3 then
              let n := (b - 240) * 262144 + (b1 - 128) * 4096 + (b2 - 128) * 64 + (b3 - 128)
              if Nat.isValidChar n then some (Char.ofNat n, rest3) else none
            else none
        | _ => none
      else none

/-- Decode a whole byte list (fuel is the byte count: every step consumes at
least one byte). -/
def utf8DecodeLoop : Nat → List Nat → Option (List Char)
  | _, [] => some []
  | 0, _ :: _ => none
  | fuel + 1, bs =>
      match utf8DecodeOne bs with
      | none => none
      | some (c, rest) => (utf8DecodeLoop fuel rest).map (fun cs => c :: cs)

/-- Decode a UTF-8 byte list to characters (`str::from_utf8`). -/
def utf8Decode (bs : List Nat) : Option (List Char) :=
  utf8DecodeLoop bs.length bs

/-! ### Framing — `toru-plugin-api/src/protocol.rs` and `error.rs` -/

/-- The `std::io::ErrorKind` values the embedding distinguishes:
`read_exact` reports `UnexpectedEof` when the stream ends early. -/
inductive IoErrorKind where
  | unexpectedEof
  | other
deriving DecidableEq

/-- PluginError (error.rs lines 5-30). `Io` carries the io error kind;
`Serialization` is the `serde_json::Error` variant; message strings are
dropped. -/
inductive PluginError where
  | Io (kind : IoErrorKind)
  | Serialization
  | Protocol
  | NotInitialized
  | InvalidRequest
  | Internal
  | Socket
  | Timeout
deriving DecidableEq

/-- The 4-byte big-endian encoding of a `u32` value (`u32::to_be_bytes`). -/
def u32be (n : Nat) : List Nat :=
  [n / 16777216 % 256, n / 65536 % 256, n / 256 % 256, n % 256]

/-- `u32::from_be_bytes` (each byte below 256). -/
def beVal (b0 b1 b2 b3 : Nat) : Nat :=
  ((b0 * 256 + b1) * 256 + b2) * 256 + b3

/-- The typed parse `serde_json::from_slice::<Message>` applied to frame
bytes: UTF-8 decode, then JSON text parse, then the typed parse. Any failure
is a `serde_json::Error`. -/
def messageFromBytes (bs : List Nat) : Option Message :=
  (utf8Decode bs).bind deserializeMessage

/-- write_message (protocol.rs lines 29-44): serialize, prefix with the byte
length as a big-endian `u32` (`json.len() as u32` truncates, hence the
`% 2^32`), write both halves. -/
def write_message (m : Message) : List Nat :=
  let bytes := utf8Encode (serializeMessage m)
  u32be (bytes.length % 4294967296) ++ bytes

/-- read_message (protocol.rs lines 11-27) on the available bytes of the
stream: read 4 length bytes, then exactly `length` payload bytes — a stream
that ends before either read completes makes `read_exact` fail with
`UnexpectedEof`, which `?` converts to `PluginError::Io`; a payload that is
not valid JSON for a `Message` makes `serde_json::from_slice` fail, which
`?` converts to `PluginError::Serialization`. Both are returned as `Err`
values (Rust has no exceptions on this path). Bytes beyond the frame belong
to the stream and are left alone. -/
def read_message (input : List Nat) : Except PluginError Message :=
  match input with
  | b0 :: b1 :: b2 :: b3 :: rest =>
      let length := beVal b0 b1 b2 b3
      if rest.length < length then Except.error (PluginError.Io IoErrorKind.unexpectedEof)
      else
        match messageFromBytes (rest.take length) with
        | some m => Except.ok m
        | none => Except.error PluginError.Serialization
  | _ => Except.error (PluginError.Io IoErrorKind.unexpectedEof)

/-- A byte string is one valid frame when it is exactly a length prefix
followed by that many bytes forming a `Message`; `decode` is `read_message`
restricted to such exact frames. -/
def decodeFrame (input : List Nat) : Option Message :=
  match input with
  | b0 :: b1 :: b2 :: b3 :: rest =>
      if rest.length = beVal b0 b1 b2 b3 then messageFromBytes rest else none
  | _ => none

/-- `encode` is `write_message`. -/
def encodeFrame (m : Message) : List Nat := write_message m

/-! ### Concrete instances used by witnesses and counterexamples -/

/-- A concrete message (a lifecycle `ready`, as the host sends it). -/
def cexMessage : Message :=
  { message_type := "lifecycle", timestamp := "2024-01-01T00:00:00Z",
    request_id := none, payload := MessagePayload.Lifecycle "ready" none }

/-- The body of a valid frame that `encode` did not produce: the canonical
serialization of `cexMessage` preceded by one space (JSON whitespace, accepted
by `serde_json::from_slice`). -/
def cexBody : List Char := ' ' :: serializeMessage cexMessage

/-- The frame around `cexBody`: correct length prefix, valid JSON payload. -/
def cexFrame : List Nat :=
  u32be (utf8Encode cexBody).length ++ utf8Encode cexBody

/-- A second concrete message, exercising the http variant. -/
def witMessage : Message :=
  new_http "2024-01-01T00:00:00Z" "R1"
    { method := "GET", path := "/ping", headers := [("accept", "text/plain")], body := none }

/-- A concrete registry: one live task, one already-killed task. -/
def witRegistry : TaskRegistry := [("a", some { pid := 7 }), ("b", none)]

/-- The C2 scenario, first step: the handler stored the child under the fresh
task id (ws.rs line 112). -/
def c2AfterStore : TaskRegistry := store_task "task-1" { pid := 42 } create_task_registry

/-- The C2 scenario, second step: the spawned streaming task removed the entry
from the registry (ws.rs lines 121-125) before reading the streams. -/
def c2StreamStart : Option TaskHandle × TaskRegistry :=
  stream_task_take "task-1" c2AfterStore

/-- A plugin record for the C5 counterexample: enabled, socket path set and
present on disk, but not in the Running state (e.g. Degraded after a crash,
its stale socket file still on disk). -/
def c5Process : PluginProcess :=
  { id := "alpha", metadata := none, enabled := true, state := PluginState.Degraded,
    pid := none, socket_path := "/tmp/alpha.sock", process := none }

/-- The file-system state for the C5 counterexample: the socket file exists. -/
def c5Fs : String → Bool := fun s => s == "/tmp/alpha.sock"

/-- A supervisor for the C6 witness: one plugin, both mutations succeed. -/
def witSupervisor : Supervisor :=
  { plugins := [("alpha", c5Process)], enableOk := fun _ => true, disableOk := fun _ => true }

/-- A healthy Running plugin record (satisfies the data-model invariant that
`socket_path` is populated exactly in the Running state). -/
def runningProcess : PluginProcess :=
  { id := "beta", metadata := none, enabled := true, state := PluginState.Running,
    pid := some 5, socket_path := "/tmp/beta.sock", process := some { pid := 5 } }

/-- The file-system state in which `runningProcess`'s socket file exists. -/
def runningFs : String → Bool := fun s => s == "/tmp/beta.sock"

/-! ## Helper lemmas -/

/-! ### Association-list lemmas -/

theorem keysOf_setEntry {α : Type} (key : String) (val : α) (m : List (String × α)) :
    keysOf (setEntry key val m) = keysOf m := by
  induction m with
  | nil => rfl
  | cons kv rest ih =>
      obtain ⟨k, v⟩ := kv
      by_cases h : k = key
      · simp [setEntry, h, keysOf]
      · simp [setEntry, h, keysOf] at ih ⊢
        exact ih

theorem lookupEntry_setEntry_same {α : Type} (key : String) (val : α) (m : List (String × α)) :
    lookupEntry key (setEntry key val m) = (lookupEntry key m).map (fun _ => val) := by
  induction m with
  | nil => rfl
  | cons kv rest ih =>
      obtain ⟨k, v⟩ := kv
      by_cases h : k = key
      · simp [setEntry, h, lookupEntry]
      · simp [setEntry, h, lookupEntry, ih]

theorem lookupEntry_setEntry_isSome {α : Type} (key key2 : String) (val : α)
    (m : List (String × α)) :
    (lookupEntry key2 (setEntry key val m)).isSome = (lookupEntry key2 m).isSome := by
  induction m with
  | nil => rfl
  | cons kv rest ih =>
      obtain ⟨k, v⟩ := kv
      by_cases h : k = key
      · subst h
        by_cases h2 : k = key2 <;> simp [setEntry, lookupEntry, h2]
      · by_cases h2 : k = key2
        · subst h2
          simp [setEntry, lookupEntry, h]
        · simp [setEntry, lookupEntry, h, h2, ih]

/-! ### Serde value-level lemmas -/

theorem asStrMap_strMap (hs : List (String × String)) :
    asStrMap (hs.map (fun kv => (kv.1, Json.str kv.2))) = some hs := by
  induction hs with
  | nil => rfl
  | cons kv rest ih => simp [asStrMap, asStr, ih]

/-- The value-level serde round-trip: deserializing a serialized `Message`
recovers it, for every message. -/
theorem parseMessage_messageJson (m : Message) : parseMessage (messageJson m) = some m := by
  obtain ⟨mt, ts, rid, pl⟩ := m
  cases pl with
  | Lifecycle action payload =>
      cases payload <;> cases rid <;>
        simp [parseMessage, messageJson, payloadJson, parsePayload, getField,
          getOptStrField, asStr, asOptStr, optStrJson, removeKeys, hasKey,
          parseLifecycleInit, Option.bind]
  | Http r req =>
      obtain ⟨method, path, headers, body⟩ := req
      cases rid <;> cases body <;>
        simp [parseMessage, messageJson, payloadJson, parsePayload, getField,
          getOptStrField, asStr, asOptStr, optStrJson, parseHttpRequest,
          httpRequestJson, strMapJson, asStrMap_strMap, Option.bind]
  | Kv r kpl =>
      cases kpl with
      | Request op =>
          cases op <;> cases rid <;>
            simp [parseMessage, messageJson, payloadJson, parsePayload, getField,
              getOptStrField, asStr, asOptStr, optStrJson, removeKeys, hasKey,
              parseKvPayload, parseKvOp, kvPayloadMembers, Option.bind]
      | Response v =>
          cases v <;> cases rid <;>
            simp [parseMessage, messageJson, payloadJson, parsePayload, getField,
              getOptStrField, asStr, asOptStr, optStrJson, removeKeys, hasKey,
              parseKvPayload, parseKvOp, kvPayloadMembers, Option.bind]

/-! ### Text-layer lemmas: the renderer and parser are inverse on the wire
fragment -/

theorem dropWs_not_ws (c : Char) (h : isWsChar c = false) (t : List Char) :
    dropWs (c :: t) = c :: t := by simp [dropWs, h]

theorem mk_toList (s : String) : String.mk s.toList = s := rfl

theorem hexVal_hexDigitChar : ∀ k, k < 16 → hexVal (hexDigitChar k) = some k := by decide

theorem jsize_pos (j : Json) : 1 ≤ jsize j := by
  cases j <;> simp [jsize]

theorem renderMembers_head (kv : String × Json) (ms : List (String × Json)) :
    ∃ t, renderMembers (kv :: ms) = quoteC :: t := by
  obtain ⟨k, v⟩ := kv
  cases ms with
  | nil => exact ⟨_, rfl⟩
  | cons kv2 t => exact ⟨_, rfl⟩

theorem parseStrBody_escapeChars (cs : List Char) :
    ∀ rest : List Char, parseStrBody (escapeChars cs ++ (quoteC :: rest)) = some (cs, rest) := by
  induction cs with
  | nil =>
      intro rest
      show parseStrBody ([] ++ quoteC :: rest) = _
      rw [List.nil_append, parseStrBody.eq_def]
      simp
  | cons c tail ih =>
      intro rest
      show parseStrBody ((escapeChar c ++ escapeChars tail) ++ quoteC :: rest) = _
      rw [List.append_assoc, escapeChar]
      by_cases h1 : c = quoteC
      · subst h1
        rw [if_pos rfl, List.cons_append, List.cons_append, List.nil_append,
          parseStrBody.eq_def]
        simp [(by decide : ¬ bslashC = quoteC), (by decide : ¬ quoteC = 'u'),
          (by decide : unescapeChar quoteC = some quoteC), ih]
      · rw [if_neg h1]
        by_cases h2 : c = bslashC
        · subst h2
          rw [if_pos rfl, List.cons_append, List.cons_append, List.nil_append,
            parseStrBody.eq_def]
          simp [(by decide : ¬ bslashC = quoteC), (by decide : ¬ bslashC = 'u'),
            (by decide : unescapeChar bslashC = some bslashC), ih]
        · rw [if_neg h2]
          by_cases h3 : c = Char.ofNat 8
          · subst h3
            rw [if_pos rfl, List.cons_append, List.cons_append, List.nil_append,
              parseStrBody.eq_def]
            simp [(by decide : ¬ bslashC = quoteC), (by decide : ¬ ('b' : Char) = 'u'),
              (by decide : unescapeChar 'b' = some (Char.ofNat 8)), ih]
          · rw [if_neg h3]
            by_cases h4 : c = Char.ofNat 9
            · subst h4
              rw [if_pos rfl, List.cons_append, List.cons_append, List.nil_append,
                parseStrBody.eq_def]
              simp [(by decide : ¬ bslashC = quoteC), (by decide : ¬ ('t' : Char) = 'u'),
                (by decide : unescapeChar 't' = some (Char.ofNat 9)), ih]
            · rw [if_neg h4]
              by_cases h5 : c = Char.ofNat 10
              · subst h5
                rw [if_pos rfl, List.cons_append, List.cons_append, List.nil_append,
                  parseStrBody.eq_def]
                simp [(by decide : ¬ bslashC = quoteC), (by decide : ¬ ('n' : Char) = 'u'),
                  (by decide : unescapeChar 'n' = some (Char.ofNat 10)), ih]
              · rw [if_neg h5]
                by_cases h6 : c = Char.ofNat 12
                · subst h6
                  rw [if_pos rfl, List.cons_append, List.cons_append, List.nil_append,
                    parseStrBody.eq_def]
                  simp [(by decide : ¬ bslashC = quoteC), (by decide : ¬ ('f' : Char) = 'u'),
                    (by decide : unescapeChar 'f' = some (Char.ofNat 12)), ih]
                · rw [if_neg h6]
                  by_cases h7 : c = Char.ofNat 13
                  · subst h7
                    rw [if_pos rfl, List.cons_append, List.cons_append, List.nil_append,
                      parseStrBody.eq_def]
                    simp [(by decide : ¬ bslashC = quoteC), (by decide : ¬ ('r' : Char) = 'u'),
                      (by decide : unescapeChar 'r' = some (Char.ofNat 13)), ih]
                  · rw [if_neg h7]
                    by_cases h8 : c.toNat < 32
                    · rw [if_pos h8]
                      rw [List.cons_append, List.cons_append, List.cons_append,
                        List.cons_append, List.cons_append, List.cons_append,
                        List.nil_append, parseStrBody.eq_def]
                      have hd1 := hexVal_hexDigitChar (c.toNat / 16) (by omega)
                      have hd2 := hexVal_hexDigitChar (c.toNat % 16) (by omega)
                      simp [(by decide : ¬ bslashC = quoteC), hd1, hd2,
                        (by decide : hexVal '0' = some 0), ih]
                      have he : c.toNat / 16 * 16 + c.toNat % 16 = c.toNat := by omega
                      rw [he, Char.ofNat_toNat]
                      exact ⟨c.valid, rfl⟩
                    · rw [if_neg h8, List.cons_append, List.nil_append,
                        parseStrBody.eq_def]
                      simp [h1, h2, h8, ih]

mutual

theorem parseJsonValue_render : ∀ (fuel : Nat) (j : Json) (rest : List Char),
    wireJson j = true → jsize j ≤ fuel →
    parseJsonValue fuel (renderJson j ++ rest) = some (j, rest)
  | 0, j, _, _, hf => absurd hf (by have := jsize_pos j; omega)
  | fuel + 1, Json.null, rest, _, _ => by
      rw [parseJsonValue.eq_def]
      simp [renderJson, dropWs_not_ws 'n' (by decide)]
  | fuel + 1, Json.bool true, rest, _, _ => by
      rw [parseJsonValue.eq_def]
      simp [renderJson, dropWs_not_ws 't' (by decide)]
  | fuel + 1, Json.bool false, rest, _, _ => by
      rw [parseJsonValue.eq_def]
      simp [renderJson, dropWs_not_ws 'f' (by decide)]
  | _ + 1, Json.num _, _, hw, _ => by simp [wireJson] at hw
  | _ + 1, Json.arr _, _, hw, _ => by simp [wireJson] at hw
  | fuel + 1, Json.str s, rest, _, _ => by
      have hb : renderJson (Json.str s) ++ rest
          = quoteC :: (escapeChars s.toList ++ (quoteC :: rest)) := by
        simp [renderJson, renderString]
      rw [parseJsonValue.eq_def, hb]
      simp [quoteC, dropWs_not_ws quoteC (by decide), parseStrBody_escapeChars, mk_toList]
  | fuel + 1, Json.obj [], rest, _, _ => by
      have hb : renderJson (Json.obj []) ++ rest = lbraceC :: (rbraceC :: rest) := by
        simp [renderJson, renderMembers]
      rw [parseJsonValue.eq_def, hb]
      simp [quoteC, lbraceC, rbraceC, dropWs_not_ws lbraceC (by decide),
        dropWs_not_ws rbraceC (by decide)]
  | fuel + 1, Json.obj (kv :: ms), rest, hw, hf => by
      have hb : renderJson (Json.obj (kv :: ms)) ++ rest
          = lbraceC :: (renderMembers (kv :: ms) ++ (rbraceC :: rest)) := by
        simp [renderJson]
      have hm := parseJsonMembers_render fuel kv ms rest
        (by simpa [wireJson] using hw)
        (by simp only [jsize] at hf; omega)
      obtain ⟨t, ht⟩ := renderMembers_head kv ms
      rw [ht] at hm
      rw [parseJsonValue.eq_def, hb, ht]
      simp only [List.cons_append] at hm ⊢
      simp [quoteC, lbraceC, rbraceC, dropWs_not_ws lbraceC (by decide),
        dropWs_not_ws quoteC (by decide), hm]

theorem parseJsonMembers_render : ∀ (fuel : Nat) (kv : String × Json)
    (ms : List (String × Json)) (rest : List Char),
    wireMembers (kv :: ms) = true → jsizeMembers (kv :: ms) ≤ fuel →
    parseJsonMembers fuel (renderMembers (kv :: ms) ++ (rbraceC :: rest)) = some (kv :: ms, rest)
  | 0, (_, v), ms, _, _, hf =>
      absurd hf (by have := jsize_pos v; simp only [jsizeMembers]; omega)
  | fuel + 1, (k, v), [], rest, hw, hf => by
      have hwv : wireJson v = true := by
        simpa [wireMembers] using hw
      have hv := parseJsonValue_render fuel v (rbraceC :: rest) hwv
        (by simp only [jsizeMembers] at hf; omega)
      have hb : renderMembers [(k, v)] ++ (rbraceC :: rest)
          = quoteC :: (escapeChars k.toList ++
              (quoteC :: (':' :: (renderJson v ++ (rbraceC :: rest))))) := by
        simp [renderMembers, renderString]
      rw [parseJsonMembers.eq_def, hb]
      simp [quoteC, rbraceC, parseStrBody_escapeChars, dropWs_not_ws ':' (by decide),
        hv, dropWs_not_ws rbraceC (by decide), mk_toList]
  | fuel + 1, (k, v), kv2 :: ms2, rest, hw, hf => by
      have hw2 := hw
      simp only [wireMembers, Bool.and_eq_true] at hw2
      have hwv : wireJson v = true := hw2.1
      have hwrest : wireMembers (kv2 :: ms2) = true := by
        simp only [wireMembers, Bool.and_eq_true]
        exact hw2.2
      have hv := parseJsonValue_render fuel v
        (',' :: (renderMembers (kv2 :: ms2) ++ (rbraceC :: rest))) hwv
        (by simp only [jsizeMembers] at hf; omega)
      have hm := parseJsonMembers_render fuel kv2 ms2 rest hwrest
        (by have hp := jsize_pos v; simp only [jsizeMembers] at hf ⊢; omega)
      obtain ⟨t, ht⟩ := renderMembers_head kv2 ms2
      have hdw : dropWs (renderMembers (kv2 :: ms2) ++ (rbraceC :: rest))
          = renderMembers (kv2 :: ms2) ++ (rbraceC :: rest) := by
        rw [ht]
        simp only [List.cons_append]
        exact dropWs_not_ws quoteC (by decide) _
      have hb : renderMembers ((k, v) :: kv2 :: ms2) ++ (rbraceC :: rest)
          = quoteC :: (escapeChars k.toList ++ (quoteC :: (':' :: (renderJson v ++
              (',' :: (renderMembers (kv2 :: ms2) ++ (rbraceC :: rest))))))) := by
        simp [renderMembers, renderString]
      rw [parseJsonMembers.eq_def, hb]
      simp [quoteC, parseStrBody_escapeChars, dropWs_not_ws ':' (by decide), hv,
        dropWs_not_ws ',' (by decide), hdw, hm, mk_toList]

end

/-! ### Fuel bound and full-document round-trip -/

theorem renderString_len (s : String) : 2 ≤ (renderString s).length := by
  simp [renderString]

mutual

theorem jsize_le_render : ∀ j : Json, wireJson j = true → jsize j ≤ (renderJson j).length
  | Json.null, _ => by simp [jsize, renderJson]
  | Json.bool true, _ => by simp [jsize, renderJson]
  | Json.bool false, _ => by simp [jsize, renderJson]
  | Json.num _, hw => by simp [wireJson] at hw
  | Json.arr _, hw => by simp [wireJson] at hw
  | Json.str s, _ => by
      have := renderString_len s
      simp [jsize, renderJson]
      omega
  | Json.obj ms, hw => by
      have hm := jsizeMembers_le_render ms (by simpa [wireJson] using hw)
      simp [jsize, renderJson]
      omega

theorem jsizeMembers_le_render : ∀ ms : List (String × Json), wireMembers ms = true →
    jsizeMembers ms ≤ (renderMembers ms).length + 1
  | [], _ => by simp [jsizeMembers, renderMembers]
  | [(k, v)], hw => by
      have hv := jsize_le_render v (by simpa [wireMembers] using hw)
      have hk := renderString_len k
      simp [jsizeMembers, renderMembers]
      omega
  | (k, v) :: kv2 :: ms2, hw => by
      have hw2 := hw
      simp only [wireMembers, Bool.and_eq_true] at hw2
      have hv := jsize_le_render v hw2.1
      have hrest := jsizeMembers_le_render (kv2 :: ms2) (by
        simp only [wireMembers, Bool.and_eq_true]
        exact hw2.2)
      have hk := renderString_len k
      simp [jsizeMembers, renderMembers] at hrest ⊢
      omega

end

theorem parseJsonText_render (j : Json) (hw : wireJson j = true) :
    parseJsonText (renderJson j) = some j := by
  have h := parseJsonValue_render ((renderJson j).length + 1) j [] hw
    (by have := jsize_le_render j hw; omega)
  rw [List.append_nil] at h
  rw [parseJsonText, h]
  simp [dropWs]

theorem wireJson_optStr (o : Option String) : wireJson (optStrJson o) = true := by
  cases o <;> simp [optStrJson, wireJson]

theorem wireMembers_strMap (hs : List (String × String)) :
    wireMembers (hs.map (fun kv => (kv.1, Json.str kv.2))) = true := by
  induction hs with
  | nil => rfl
  | cons kv rest ih => simp [wireMembers, wireJson, ih]

theorem wireJson_messageJson (m : Message) : wireJson (messageJson m) = true := by
  obtain ⟨mt, ts, rid, pl⟩ := m
  cases pl with
  | Lifecycle action payload =>
      cases payload <;>
        simp [messageJson, payloadJson, wireJson, wireMembers, wireJson_optStr]
  | Http r req =>
      obtain ⟨method, path, headers, body⟩ := req
      simp [messageJson, payloadJson, httpRequestJson, strMapJson, wireJson,
        wireMembers, wireJson_optStr, wireMembers_strMap]
  | Kv r kpl =>
      cases kpl with
      | Request op =>
          cases op <;>
            simp [messageJson, payloadJson, kvPayloadMembers, wireJson, wireMembers,
              wireJson_optStr]
      | Response v =>
          simp [messageJson, payloadJson, kvPayloadMembers, wireJson, wireMembers,
            wireJson_optStr]

theorem deserialize_serialize (m : Message) :
    deserializeMessage (serializeMessage m) = some m := by
  rw [deserializeMessage, serializeMessage,
    parseJsonText_render _ (wireJson_messageJson m)]
  simp [parseMessage_messageJson m]

/-! ### UTF-8 round-trip lemmas -/

theorem utf8EncodeChar_ne_nil (c : Char) : utf8EncodeChar c ≠ [] := by
  rw [utf8EncodeChar]
  split_ifs <;> simp

theorem utf8EncodeChar_len_pos (c : Char) : 1 ≤ (utf8EncodeChar c).length := by
  rw [utf8EncodeChar]
  split_ifs <;> simp

theorem char_toNat_lt (c : Char) : c.toNat < 1114112 := by
  have h := c.valid
  rcases h with h | ⟨h1, h2⟩
  · simp [Char.toNat]
    omega
  · simp [Char.toNat]
    omega

theorem utf8DecodeOne_encodeChar (c : Char) (rest : List Nat) :
    utf8DecodeOne (utf8EncodeChar c ++ rest) = some (c, rest) := by
  rw [utf8EncodeChar]
  by_cases h1 : c.toNat < 128
  · rw [if_pos h1]
    simp only [List.cons_append, List.nil_append]
    rw [utf8DecodeOne.eq_def]
    simp [h1, Char.ofNat_toNat]
  · rw [if_neg h1]
    by_cases h2 : c.toNat < 2048
    · rw [if_pos h2]
      simp only [List.cons_append, List.nil_append]
      rw [utf8DecodeOne.eq_def]
      have hb1 : ¬ (192 + c.toNat / 64 < 128) := by omega
      have hb2 : ¬ (192 + c.toNat / 64 < 192) := by omega
      have hb3 : 192 + c.toNat / 64 < 224 := by omega
      have hc : isContByte (128 + c.toNat % 64) = true := by simp [isContByte]; omega
      have harith : (192 + c.toNat / 64 - 192) * 64 + (128 + c.toNat % 64 - 128)
          = c.toNat := by omega
      simp [hb1, hb2, hb3, hc]
      have he : c.toNat / 64 * 64 + c.toNat % 64 = c.toNat := by omega
      rw [he, Char.ofNat_toNat]
      exact ⟨c.valid, rfl⟩
    · rw [if_neg h2]
      by_cases h3 : c.toNat < 65536
      · rw [if_pos h3]
        simp only [List.cons_append, List.nil_append]
        rw [utf8DecodeOne.eq_def]
        have hb1 : ¬ (224 + c.toNat / 4096 < 128) := by omega
        have hb2 : ¬ (224 + c.toNat / 4096 < 192) := by omega
        have hb3 : ¬ (224 + c.toNat / 4096 < 224) := by omega
        have hb4 : 224 + c.toNat / 4096 < 240 := by omega
        have hc1 : isContByte (128 + c.toNat / 64 % 64) = true := by simp [isContByte]; omega
        have hc2 : isContByte (128 + c.toNat % 64) = true := by simp [isContByte]; omega
        have harith : (224 + c.toNat / 4096 - 224) * 4096 + (128 + c.toNat / 64 % 64 - 128) * 64
            + (128 + c.toNat % 64 - 128) = c.toNat := by omega
        simp [hb1, hb2, hb3, hb4, hc1, hc2]
        have he : c.toNat / 4096 * 4096 + c.toNat / 64 % 64 * 64 + c.toNat % 64
            = c.toNat := by omega
        rw [he, Char.ofNat_toNat]
        exact ⟨c.valid, rfl⟩
      · rw [if_neg h3]
        have hlt := char_toNat_lt c
        simp only [List.cons_append, List.nil_append]
        rw [utf8DecodeOne.eq_def]
        have hb1 : ¬ (240 + c.toNat / 262144 < 128) := by omega
        have hb2 : ¬ (240 + c.toNat / 262144 < 192) := by omega
        have hb3 : ¬ (240 + c.toNat / 262144 < 224) := by omega
        have hb4 : ¬ (240 + c.toNat / 262144 < 240) := by omega
        have hb5 : 240 + c.toNat / 262144 < 248 := by omega
        have hc1 : isContByte (128 + c.toNat / 4096 % 64) = true := by simp [isContByte]; omega
        have hc2 : isContByte (128 + c.toNat / 64 % 64) = true := by simp [isContByte]; omega
        have hc3 : isContByte (128 + c.toNat % 64) = true := by simp [isContByte]; omega
        have harith : (240 + c.toNat / 262144 - 240) * 262144
            + (128 + c.toNat / 4096 % 64 - 128) * 4096
            + (128 + c.toNat / 64 % 64 - 128) * 64 + (128 + c.toNat % 64 - 128) = c.toNat := by
          omega
        simp [hb1, hb2, hb3, hb4, hb5, hc1, hc2, hc3]
        have he : c.toNat / 262144 * 262144 + c.toNat / 4096 % 64 * 4096
            + c.toNat / 64 % 64 * 64 + c.toNat % 64 = c.toNat := by omega
        rw [he, Char.ofNat_toNat]
        exact ⟨c.valid, rfl⟩

theorem utf8Encode_len_ge : ∀ cs : List Char, cs.length ≤ (utf8Encode cs).length := by
  intro cs
  induction cs with
  | nil => simp [utf8Encode]
  | cons c tail ih =>
      have := utf8EncodeChar_len_pos c
      simp [utf8Encode]
      omega

theorem utf8DecodeLoop_encode : ∀ (cs : List Char) (fuel : Nat), cs.length ≤ fuel →
    utf8DecodeLoop fuel (utf8Encode cs) = some cs := by
  intro cs
  induction cs with
  | nil => intro fuel _; cases fuel <;> rfl
  | cons c tail ih =>
      intro fuel hfl
      match fuel, hfl with
      | fuel + 1, hfl =>
        show utf8DecodeLoop (fuel + 1) (utf8EncodeChar c ++ utf8Encode tail) = _
        cases he : utf8EncodeChar c with
        | nil => exact absurd he (utf8EncodeChar_ne_nil c)
        | cons b bs =>
            have hd : utf8DecodeOne (b :: (bs ++ utf8Encode tail)) = some (c, utf8Encode tail) := by
              rw [← List.cons_append, ← he]
              exact utf8DecodeOne_encodeChar c _
            rw [utf8DecodeLoop.eq_def]
            simp [hd, ih fuel (by simp at hfl; omega)]

theorem utf8Decode_encode (cs : List Char) : utf8Decode (utf8Encode cs) = some cs :=
  utf8DecodeLoop_encode cs _ (utf8Encode_len_ge cs)


/-! ### Framing lemmas -/

theorem messageFromBytes_encode (m : Message) :
    messageFromBytes (utf8Encode (serializeMessage m)) = some m := by
  rw [messageFromBytes, utf8Decode_encode]
  simp [deserialize_serialize]

theorem beVal_u32 (n : Nat) (h : n < 4294967296) :
    beVal (n / 16777216 % 256) (n / 65536 % 256) (n / 256 % 256) (n % 256) = n := by
  rw [beVal]
  omega

theorem decodeFrame_encodeFrame (m : Message)
    (h : (utf8Encode (serializeMessage m)).length < 4294967296) :
    decodeFrame (encodeFrame m) = some m := by
  rw [encodeFrame, write_message, Nat.mod_eq_of_lt h, u32be]
  simp only [List.cons_append, List.nil_append, decodeFrame]
  rw [beVal_u32 _ h]
  simp [messageFromBytes_encode]

/-! ## Claim theorems -/

set_option maxRecDepth 8000

/-- C1: for every `Message` value, serializing it to JSON and parsing the
result back yields an equal `Message` — `parse(serialize(message)) =
message` — in particular each `MessagePayload` variant (lifecycle with its
optional flattened init payload, http, kv with the untagged request/response
payload) deserializes back to the same variant with the same fields. -/
theorem c1_parse_serialize_roundtrip (m : Message) :
    deserializeMessage (serializeMessage m) = some m :=
  deserialize_serialize m

/-- C2: evaluation of the code at the failing scenario. After `run` stores the
child (ws.rs line 112) the spawned streaming task immediately removes the
registry entry (lines 121-125) and owns the child while streaming; a `cancel`
arriving mid-stream therefore finds no handle: `cancel_task` returns `false`,
the handler emits no `cancelled` message, no process is killed, and the
task-history row is later closed with the script's own exit code (here 0),
not `-1` — contradicting the claim that cancel mid-stream returns true,
emits `cancelled`, and persists exit code -1. -/
theorem c2_cancel_mid_stream_ineffective :
    c2StreamStart.1 = some (some { pid := 42 })
    ∧ cancel_task "task-1" c2StreamStart.2 = (false, [])
    ∧ ws_cancel "task-1" c2StreamStart.2 = ([], [])
    ∧ wait_exit_code (some (some 0)) = 0 ∧ (0 : Int) ≠ -1 := by decide

/-- C3: evaluation of the code at the failing scenario. In the select loop of
ws.rs lines 137-182 the stdout arm breaks on EOF (`Ok(0) => break`) while the
stderr arm ignores EOF (`Ok(0) => {}`): with stdout already at EOF and one
stderr line pending, a schedule that polls stdout first ends the loop with
the stderr line never emitted — the code does not continue until both
streams reach EOF. The second conjunct shows the asymmetry: stderr EOF does
not stop stdout emission. -/
theorem c3_stream_breaks_on_stdout_eof :
    stream_loop "t1" [true] [] ["boom"]
      = { emitted := [], brokeOnStdout := true, stdoutRest := [], stderrRest := ["boom"] }
    ∧ stream_loop "t1" [false, false, true, true, true] ["a", "b"] []
      = { emitted := [stdoutMsg "t1" "a", stdoutMsg "t1" "b"], brokeOnStdout := true,
          stdoutRest := [], stderrRest := [] } := by decide

/-- C4: `cancel_task` returns true if and only if a live (not yet killed)
child is present in the registry under the id, and after any first call a
second call with the same id returns false (the handle cell is cleared, not
re-killed). -/
theorem c4_cancel_true_iff_live (registry : TaskRegistry) (task_id : String) :
    ((cancel_task task_id registry).1 = true ↔
      ∃ c : Child, lookupEntry task_id registry = some (some c))
    ∧ (cancel_task task_id (cancel_task task_id registry).2).1 = false := by
  constructor
  · constructor
    · intro h
      cases hl : lookupEntry task_id registry with
      | none => simp [cancel_task, hl] at h
      | some o =>
          cases o with
          | none => simp [cancel_task, hl] at h
          | some c => exact ⟨c, hl ▸ rfl⟩
    · rintro ⟨c, hl⟩
      simp [cancel_task, hl]
  · cases hl : lookupEntry task_id registry with
    | none => simp [cancel_task, hl]
    | some o =>
        cases o with
        | none => simp [cancel_task, hl]
        | some c =>
            have h2 := lookupEntry_setEntry_same task_id (none : TaskHandle) registry
            rw [hl] at h2
            simp [cancel_task, hl, h2]

/-- Witness for C4 at a concrete registry with a live task "a". -/
theorem c4_cancel_witness :
    ((cancel_task "a" witRegistry).1 = true ↔
      ∃ c : Child, lookupEntry "a" witRegistry = some (some c))
    ∧ (cancel_task "a" (cancel_task "a" witRegistry).2).1 = false :=
  c4_cancel_true_iff_live witRegistry "a"

/-- C5 counterexample: the health derivation in plugins.rs never consults the
state field. `c5Process` is enabled, not Running (Degraded), with a non-empty
socket path whose file exists: the code reports "healthy" while the claim
("unhealthy in every other case") requires "unhealthy". -/
theorem c5_health_counterexample :
    healthOf c5Process c5Fs = "healthy"
    ∧ healthPerSpec c5Process c5Fs = "unhealthy"
    ∧ c5Process.state ≠ PluginState.Running
    ∧ c5Process.enabled = true := by decide

/-- C5 (amended): the derived health string is "disabled" when the plugin is
not enabled; "healthy" when it is enabled and its `socket_path` is non-empty
and that file exists on disk; and "unhealthy" in every other case — the
`Running` state is not consulted; on records satisfying the data-model
invariant that `socket_path` is populated exactly in the Running state this
coincides with the claim's projection. -/
theorem c5_health_amended (p : PluginProcess) (fs : String → Bool) :
    (p.enabled = false → healthOf p fs = "disabled")
    ∧ (p.enabled = true → p.socket_path ≠ "" → fs p.socket_path = true →
        healthOf p fs = "healthy")
    ∧ (p.enabled = true → (p.socket_path = "" ∨ fs p.socket_path = false) →
        healthOf p fs = "unhealthy")
    ∧ ((p.socket_path ≠ "" ↔ p.state = PluginState.Running) →
        healthOf p fs = healthPerSpec p fs) := by
  refine ⟨?_, ?_, ?_, ?_⟩
  · intro h
    simp [healthOf, h]
  · intro h hs hf
    simp [healthOf, h, hs, hf]
  · intro h hd
    rcases hd with hs | hf
    · simp [healthOf, h, hs]
    · simp [healthOf, h, hf]
  · intro hiff
    by_cases he : p.enabled
    · by_cases hs : p.socket_path = ""
      · have hnr : ¬ p.state = PluginState.Running := by
          intro hr
          exact (hiff.mpr hr) hs
        by_cases hf : fs p.socket_path
        · simp [healthOf, healthPerSpec, he, hs, hf, hnr]
        · simp [healthOf, healthPerSpec, he, hs, hf, hnr]
      · have hr : p.state = PluginState.Running := hiff.mp hs
        by_cases hf : fs p.socket_path
        · simp [healthOf, healthPerSpec, he, hs, hf, hr]
        · simp [healthOf, healthPerSpec, he, hs, hf, hr]
    · simp [healthOf, healthPerSpec, he]

/-- Witness for C5 (amended) at a Running record whose socket file exists:
the code reports "healthy" and agrees with the claim's projection there. -/
theorem c5_health_amended_witness :
    healthOf runningProcess runningFs = "healthy"
    ∧ healthOf runningProcess runningFs = healthPerSpec runningProcess runningFs :=
  ⟨(c5_health_amended runningProcess runningFs).2.1 (by decide) (by decide) (by decide),
   (c5_health_amended runningProcess runningFs).2.2.2 (by decide)⟩

/-- C6: for every plugin-management call, enable and disable return 204 with
no content on success; get/enable/disable on an id not in the registry return
404; every operation with the supervisor absent returns 501; and list/get
return 200 with a body on success. -/
theorem c6_status_codes (s : Supervisor) (id : String) :
    (list_plugins none).status = 501
    ∧ (get_plugin none id).status = 501
    ∧ (enable_plugin none id).status = 501
    ∧ (disable_plugin none id).status = 501
    ∧ (lookupEntry id s.plugins = none →
        (get_plugin (some s) id).status = 404
        ∧ (enable_plugin (some s) id).status = 404
        ∧ (disable_plugin (some s) id).status = 404)
    ∧ ((lookupEntry id s.plugins).isSome = true → s.enableOk id = true →
        enable_plugin (some s) id = { status := 204, hasBody := false })
    ∧ ((lookupEntry id s.plugins).isSome = true → s.disableOk id = true →
        disable_plugin (some s) id = { status := 204, hasBody := false })
    ∧ list_plugins (some s) = { status := 200, hasBody := true }
    ∧ ((lookupEntry id s.plugins).isSome = true →
        get_plugin (some s) id = { status := 200, hasBody := true }) := by
  refine ⟨rfl, rfl, rfl, rfl, ?_, ?_, ?_, rfl, ?_⟩
  · intro h
    exact ⟨by simp [get_plugin, h], by simp [enable_plugin, h], by simp [disable_plugin, h]⟩
  · intro h hok
    cases hl : lookupEntry id s.plugins with
    | none => rw [hl] at h; simp at h
    | some p => simp [enable_plugin, hl, hok]
  · intro h hok
    cases hl : lookupEntry id s.plugins with
    | none => rw [hl] at h; simp at h
    | some p => simp [disable_plugin, hl, hok]
  · intro h
    cases hl : lookupEntry id s.plugins with
    | none => rw [hl] at h; simp at h
    | some p => simp [get_plugin, hl]

/-- Witness for C6 at a concrete supervisor with plugin "alpha". -/
theorem c6_status_codes_witness :
    enable_plugin (some witSupervisor) "alpha" = { status := 204, hasBody := false }
    ∧ disable_plugin (some witSupervisor) "alpha" = { status := 204, hasBody := false }
    ∧ (get_plugin (some witSupervisor) "missing").status = 404
    ∧ get_plugin (some witSupervisor) "alpha" = { status := 200, hasBody := true }
    ∧ (enable_plugin none "alpha").status = 501 :=
  ⟨(c6_status_codes witSupervisor "alpha").2.2.2.2.2.1 (by decide) (by decide),
   (c6_status_codes witSupervisor "alpha").2.2.2.2.2.2.1 (by decide) (by decide),
   ((c6_status_codes witSupervisor "missing").2.2.2.2.1 (by decide)).1,
   (c6_status_codes witSupervisor "alpha").2.2.2.2.2.2.2.2 (by decide),
   (c6_status_codes witSupervisor "alpha").2.2.1⟩

/-- C7 counterexample: `cexFrame` is a valid frame — a big-endian u32 length
prefix followed by exactly that many UTF-8 bytes of JSON that parse as a
`Message` (the JSON has one leading space, which `serde_json` accepts) — yet
re-encoding the decoded message does not reproduce the original bytes, so
`encode(decode(bytes)) = bytes` fails on this valid frame. -/
theorem c7_frame_counterexample :
    decodeFrame cexFrame = some cexMessage
    ∧ (decodeFrame cexFrame).map encodeFrame ≠ some cexFrame := by
  constructor
  · decide
  · decide

/-- C7 (amended): `encode(decode(bytes)) = bytes` holds for every frame that
`encode` itself produced (equivalently, `decode(encode(m)) = m` for every
message whose serialized body fits the u32 length prefix); on other valid
frames decode-then-encode yields the canonical re-encoding, which can differ
from the original bytes. -/
theorem c7_frame_roundtrip_amended (m : Message)
    (h : (utf8Encode (serializeMessage m)).length < 4294967296) :
    decodeFrame (encodeFrame m) = some m
    ∧ (decodeFrame (encodeFrame m)).map encodeFrame = some (encodeFrame m) := by
  have hd := decodeFrame_encodeFrame m h
  exact ⟨hd, by rw [hd]; rfl⟩

/-- Witness for C7 (amended) at a concrete http message. -/
theorem c7_frame_roundtrip_witness :
    decodeFrame (encodeFrame witMessage) = some witMessage
    ∧ (decodeFrame (encodeFrame witMessage)).map encodeFrame
        = some (encodeFrame witMessage) :=
  c7_frame_roundtrip_amended witMessage (by decide)

/-- C8: `read_message` returns (never throws) its failures: a stream too
short for the 4-byte length prefix or for the announced payload yields the
connection-closed signal `Io(UnexpectedEof)`, distinct from ordinary errors;
a complete frame whose payload is not valid JSON for a `Message` yields the
`Serialization` protocol error; and the two error values are distinct
constructors. -/
theorem c8_read_message_failures (b0 b1 b2 b3 : Nat) (rest shortInput : List Nat) :
    (shortInput.length < 4 →
      read_message shortInput = Except.error (PluginError.Io IoErrorKind.unexpectedEof))
    ∧ (rest.length < beVal b0 b1 b2 b3 →
        read_message (b0 :: b1 :: b2 :: b3 :: rest)
          = Except.error (PluginError.Io IoErrorKind.unexpectedEof))
    ∧ (beVal b0 b1 b2 b3 ≤ rest.length →
        messageFromBytes (rest.take (beVal b0 b1 b2 b3)) = none →
        read_message (b0 :: b1 :: b2 :: b3 :: rest) = Except.error PluginError.Serialization)
    ∧ PluginError.Io IoErrorKind.unexpectedEof ≠ PluginError.Serialization := by
  refine ⟨?_, ?_, ?_, by decide⟩
  · intro h
    match shortInput, h with
    | [], _ => rfl
    | [a], _ => rfl
    | [a, b], _ => rfl
    | [a, b, c], _ => rfl
    | a :: b :: c :: d :: t, h => simp at h; omega
  · intro h
    simp [read_message, h]
  · intro h1 h2
    simp [read_message, Nat.not_lt_of_le h1, h2]

/-- Witness for C8: an empty stream, a truncated frame, and a one-byte
non-JSON frame. -/
theorem c8_read_message_failures_witness :
    read_message ([] : List Nat) = Except.error (PluginError.Io IoErrorKind.unexpectedEof)
    ∧ read_message [0, 0, 0, 5] = Except.error (PluginError.Io IoErrorKind.unexpectedEof)
    ∧ read_message [0, 0, 0, 1, 97] = Except.error PluginError.Serialization :=
  ⟨(c8_read_message_failures 0 0 0 5 [] []).1 (by decide),
   (c8_read_message_failures 0 0 0 5 [] []).2.1 (by decide),
   (c8_read_message_failures 0 0 0 1 [97] []).2.2.1 (by decide) (by decide)⟩

/-- C9: every constructed `Message` keeps the correlation id consistent:
`new_http`, `new_kv` and `new_kv_response` set the top-level request_id to
`Some(r)`, carry the same `r` inside the payload, and set `message_type` to
the payload variant's wire tag ("http" or "kv"); `new_lifecycle` sets
request_id to `None` and message_type to "lifecycle". -/
theorem c9_constructor_consistency (now r action : String) (req : HttpRequest)
    (op : KvOp) (v : Option String) (ip : Option LifecycleInitPayload) :
    (new_http now r req).request_id = some r
    ∧ payloadRequestId (new_http now r req).payload = some r
    ∧ (new_http now r req).message_type = "http"
    ∧ (new_http now r req).message_type = payloadTag (new_http now r req).payload
    ∧ (new_kv now r op).request_id = some r
    ∧ payloadRequestId (new_kv now r op).payload = some r
    ∧ (new_kv now r op).message_type = "kv"
    ∧ (new_kv now r op).message_type = payloadTag (new_kv now r op).payload
    ∧ (new_kv_response now r v).request_id = some r
    ∧ payloadRequestId (new_kv_response now r v).payload = some r
    ∧ (new_kv_response now r v).message_type = "kv"
    ∧ (new_kv_response now r v).message_type = payloadTag (new_kv_response now r v).payload
    ∧ (new_lifecycle now action ip).request_id = none
    ∧ (new_lifecycle now action ip).message_type = "lifecycle"
    ∧ (new_lifecycle now action ip).message_type
        = payloadTag (new_lifecycle now action ip).payload :=
  ⟨rfl, rfl, rfl, rfl, rfl, rfl, rfl, rfl, rfl, rfl, rfl, rfl, rfl, rfl, rfl⟩

/-- C10: `cancel_task` never shrinks the registry: the key list after a call
equals the key list before it, and any id's presence under `get_task` is
unchanged, so a cancelled task stays observable until `remove_task`. -/
theorem c10_cancel_preserves_registry (registry : TaskRegistry) (task_id other : String) :
    keysOf (cancel_task task_id registry).2 = keysOf registry
    ∧ (get_task other (cancel_task task_id registry).2).isSome
        = (get_task other registry).isSome := by
  cases hl : lookupEntry task_id registry with
  | none => simp [cancel_task, hl]
  | some o =>
      cases o with
      | none => simp [cancel_task, hl]
      | some c =>
          simp [cancel_task, hl, get_task, keysOf_setEntry, lookupEntry_setEntry_isSome]

/-- Witness for C10 at a concrete registry. -/
theorem c10_cancel_preserves_registry_witness :
    keysOf (cancel_task "a" witRegistry).2 = keysOf witRegistry
    ∧ (get_task "a" (cancel_task "a" witRegistry).2).isSome
        = (get_task "a" witRegistry).isSome :=
  c10_cancel_preserves_registry witRegistry "a" "a"

end Toru
